import Mathlib

/-!
Verification of the lineage graph and confidence engine of this repository
(`backend/api/lineage.py` and `backend/api/graph_store.py`).

Modelling conventions, used throughout:

* Python `float` arithmetic is modelled by exact rationals (`ℚ`); `round(x, n)`
  is modelled with `Int.round` (the two disagree only on exact half-way ties,
  which no theorem below exercises).
* Python dicts keyed by strings are modelled as association lists with
  insert-or-replace semantics; key iteration follows insertion order
  (first occurrence of a key), and lookup returns the last-written value.
* Timestamps (`datetime.now().isoformat()`) are modelled by a single natural
  number `now` supplied to a build; ISO-8601 comparison becomes `≤` on `ℕ`.
* External I/O — the per-view SQL fetch plus regex table extraction
  (`get_bigquery_view_lineage` / `get_starburst_view_lineage`), the query-log
  file lookup (`_logs_imply_relationship`) and HMAC edge signing (`sign_edge`,
  which depends on an environment variable) — is abstracted into explicit
  function parameters; `edge_signature` is omitted from the edge record since
  no claim mentions it.
* `str.lower` / `str.upper` are modelled on ASCII letters, which covers every
  string any theorem below evaluates.
* A missing/`None` string field read through `.get(...) or ...` is modelled as
  `""` (both are falsy and flow identically through the code under study).
-/

namespace Torro

/-- ASCII lower-casing of one character (Python `str.lower` restricted to ASCII). -/
def lowerChar (c : Char) : Char :=
  if 'A' ≤ c ∧ c ≤ 'Z' then Char.ofNat (c.toNat + 32) else c

/-- ASCII upper-casing of one character (Python `str.upper` restricted to ASCII). -/
def upperChar (c : Char) : Char :=
  if 'a' ≤ c ∧ c ≤ 'z' then Char.ofNat (c.toNat - 32) else c

/-- Python `s.lower()` (ASCII). -/
def pyLower (s : String) : String := ⟨s.data.map lowerChar⟩

/-- Python `s.upper()` (ASCII). -/
def pyUpper (s : String) : String := ⟨s.data.map upperChar⟩

/-- Is the first list a prefix of the second (on characters)? -/
def listIsPrefixC : List Char → List Char → Bool
  | [], _ => true
  | _ :: _, [] => false
  | a :: l, b :: m => a == b && listIsPrefixC l m

/-- Is the first list a contiguous infix of the second? -/
def listIsInfixC (n : List Char) : List Char → Bool
  | [] => listIsPrefixC n []
  | c :: t => listIsPrefixC n (c :: t) || listIsInfixC n t

/-- Python substring test `needle in hay`. -/
def strContains (hay needle : String) : Bool := listIsInfixC needle.data hay.data

/-- Python `s.startswith(p)`. -/
def strStartsWith (s p : String) : Bool := listIsPrefixC p.data s.data

/-- Python `s.endswith(p)`. -/
def strEndsWith (s p : String) : Bool := listIsPrefixC p.data.reverse s.data.reverse

/-- Python `s.strip()` (whitespace strip). -/
def pyStrip (s : String) : String :=
  ⟨((s.data.dropWhile Char.isWhitespace).reverse.dropWhile Char.isWhitespace).reverse⟩

/-- Python `sep.join(parts)` for `sep = ", "`. -/
def joinCommaSep : List String → String
  | [] => ""
  | [x] => x
  | x :: xs => x ++ ", " ++ joinCommaSep xs

/-- Python `round(x, 3)` on our rational model of floats. -/
def round3 (q : ℚ) : ℚ := ((round (q * 1000) : ℤ) : ℚ) / 1000

/-- Python `round(x, 2)` on our rational model of floats. -/
def round2 (q : ℚ) : ℚ := ((round (q * 100) : ℤ) : ℚ) / 100

/-- Keep the first occurrence of every string, dropping later duplicates
(dict-key iteration order for a dict built by repeated assignment). -/
def dedupFirst (seen : List String) : List String → List String
  | [] => []
  | x :: xs => if seen.contains x then dedupFirst seen xs else x :: dedupFirst (x :: seen) xs

/-- One column dict as the Python code reads it (`name`, `type`, `description`,
`nullable`, `unique`, `primary_key`; absent keys get the stated defaults). -/
structure PyColumn where
  name : String := ""
  type_ : String := ""
  description : String := ""
  nullable : Option Bool := none
  unique : Bool := false
  primary_key : Bool := false
  deriving DecidableEq

/-- One foreign-key dict of an asset (`referenced_table` may be absent). -/
structure ForeignKey where
  referenced_table : Option String := none
  columns : List String := []
  deriving DecidableEq

/-- One discovered asset dict, restricted to the keys `lineage.py` reads.
`sql` / `definition` model `asset.get('sql','')` / `asset.get('definition','')`
("" when absent); `row_count` / `last_modified` are the table-level metadata
read by `get_enterprise_data_quality_score` (`last_modified` is its truthiness). -/
structure Asset where
  id : String
  name : String
  type_ : String
  catalog : String
  schema : String := ""
  connector_id : String
  columns : List PyColumn := []
  sql : String := ""
  definition : String := ""
  foreign_keys : List ForeignKey := []
  row_count : Nat := 0
  last_modified : Bool := false
  deriving DecidableEq

/-- `asset.get('sql', '') or asset.get('definition', '')`. -/
def sqlOrDef (a : Asset) : String := if a.sql ≠ "" then a.sql else a.definition

/-- The `ColumnLineage` pydantic model. `contains_pii` is the boolean component
of `detect_pii_in_column` (the usage-based builders pass the whole tuple where
a bool is declared; no theorem below exercises that coercion). -/
structure ColumnLineage where
  source_table : String
  source_column : String
  target_table : String
  target_column : String
  relationship_type : String
  contains_pii : Bool
  data_quality_score : Nat
  impact_score : Int
  deriving DecidableEq

/-- A transformation dict (`type`, `category`, `source_table`, `target_table`,
`columns`); keys a producer does not set are modelled as `""` / `[]`. -/
structure Transformation where
  type_ : String
  category : String := ""
  source_table : String := ""
  target_table : String := ""
  columns : List String := []
  deriving DecidableEq

/-- The synthetic `{'type': 'QUERY_LOG'}` record folded in before scoring. -/
def queryLogTrans : Transformation := { type_ := "QUERY_LOG" }

/-- `compute_edge_confidence`: `(confidence_score, evidence)` from the
relationship tag, the column mappings and the transformation evidence.
`(cl.impact_score or 1)` maps a zero impact to 1 (Python falsiness). -/
def compute_edge_confidence (relationship : String) (column_lineage : List ColumnLineage)
    (transformations : List Transformation) : ℚ × List String :=
  let strongRel := ["foreign_key", "etl_pipeline", "elt_pipeline", "id_relationship"]
  let base1 : ℚ := if strongRel.contains relationship then 0.6 else 0.4
  let ev1 : List String :=
    if strongRel.contains relationship then ["relationship_type:" ++ relationship] else []
  let mappings := column_lineage.length
  let impacts : List Int :=
    column_lineage.map (fun cl => if cl.impact_score = 0 then 1 else cl.impact_score)
  let avg_impact : ℚ := (impacts.sum : ℚ) / max 1 (mappings : ℚ)
  let base2 : ℚ :=
    if mappings ≠ 0 then
      base1 + min 0.3 ((mappings : ℚ) * 0.03) + min 0.2 ((avg_impact / 10) * 0.2)
    else base1
  let ev2 :=
    if mappings ≠ 0 then ev1 ++ ["column_mappings:" ++ toString mappings] else ev1
  let trans_types := transformations.map (·.type_)
  let strongT := ["FOREIGN_KEY", "ETL_PIPELINE", "ELT_PIPELINE", "ID_RELATIONSHIP"]
  let hasStrong := transformations ≠ [] ∧ strongT.any (fun t => trans_types.contains t)
  let base3 := if hasStrong then base2 + 0.15 else base2
  let ev3 := if hasStrong then ev2 ++ ["transformations:strong"] else ev2
  let sqlOps := ["COUNT", "SUM", "JOIN", "DISTINCT"]
  let ev4 :=
    if transformations ≠ [] ∧ sqlOps.any (fun t => trans_types.contains t) then
      ev3 ++ ["transformations:sql_ops"]
    else ev3
  (max 0 (min 1 base3), ev4)

/-- The tiered PII pattern table of `detect_pii_in_column`, in dict insertion
order (`HIGH`, `MEDIUM`, `LOW`). -/
def pii_patterns : List (String × List String) :=
  [("HIGH", ["ssn", "social_security", "passport", "national_id", "license_number",
             "credit_card", "account_number", "password", "secret", "private_key"]),
   ("MEDIUM", ["email", "phone", "mobile", "address", "zip", "postal", "birth_date",
               "birthday", "age", "gender", "race", "ethnicity"]),
   ("LOW", ["name", "first_name", "last_name", "full_name", "username", "user_id"])]

/-- Scan the tier table in order and return `(True, tier)` at the first tier
with a matching pattern. -/
def detectPiiAux (combined : String) : List (String × List String) → Bool × String
  | [] => (false, "NONE")
  | (tier, pats) :: rest =>
    if pats.any (fun p => strContains combined p) then (true, tier)
    else detectPiiAux combined rest

/-- `detect_pii_in_column(column_name, description)`. -/
def detect_pii_in_column (column_name : String) (description : String := "") : Bool × String :=
  detectPiiAux (pyLower (column_name ++ " " ++ description)) pii_patterns

/-- `get_column_quality_score`: 95 with a non-blank description, else 80. -/
def get_column_quality_score (column : PyColumn) : Nat :=
  if pyStrip column.description ≠ "" then 95 else 80

/-- `get_enterprise_data_quality_score(column, table_metadata)`. The
`table_metadata` argument is an asset dict (always truthy at the call sites
modelled here). -/
def get_enterprise_data_quality_score (column : PyColumn) (table_metadata : Asset) : Nat :=
  let s1 : Nat := 50
  let s2 := s1 + (if column.nullable = some false then 10 else 0)
  let s3 := s2 + (if column.unique then 5 else 0)
  let s4 := s3 + (if column.primary_key then 15 else 0)
  let descOk := column.description ≠ "" ∧ pyStrip column.description ≠ "" ∧ column.description ≠ "-"
  let s5 := s4 + (if descOk then 20 else 0)
  let s6 := s5 + (if descOk ∧ column.description.length > 50 then 5 else 0)
  let colType := pyUpper column.type_
  let colName := pyLower column.name
  let s7 := s6 +
    (if strContains colName "email" ∧ strContains colType "VARCHAR" then 5
     else if strContains colName "date" ∧ (strContains colType "DATE" ∨ strContains colType "TIMESTAMP") then 5
     else if strContains colName "id" ∧ (strContains colType "INTEGER" ∨ strContains colType "BIGINT") then 5
     else 0)
  let s8 := s7 + (if table_metadata.row_count > 1000 then 5 else 0)
  let s9 := s8 + (if table_metadata.last_modified then 5 else 0)
  min 100 s9

/-- The backtick character, used by the cross-table SQL reference patterns. -/
def btick : String := "\x60"

/-- `analyze_cross_table_sql_relationships(source_asset, target_asset, discovered_assets)`:
cross-table `table.column` references found verbatim in the other asset's SQL.
(The `discovered_assets` argument is unused by the source as well; `source_usage`
/ `target_usage` are computed there but never read, so they are not modelled.) -/
def analyze_cross_table_sql_relationships (source_asset target_asset : Asset)
    (_discovered : List Asset) : List ColumnLineage :=
  if source_asset.columns = [] ∨ target_asset.columns = [] then []
  else
    let source_sql := sqlOrDef source_asset
    let target_sql := sqlOrDef target_asset
    let sName := pyLower source_asset.name
    let tName := pyLower target_asset.name
    if target_sql ≠ "" ∧ strContains (pyLower target_sql) sName then
      target_asset.columns.flatMap (fun tc =>
        source_asset.columns.filterMap (fun sc =>
          let scn := pyLower sc.name
          if strContains (pyLower target_sql) (sName ++ "." ++ scn) ∨
             strContains (pyLower target_sql) (btick ++ sName ++ btick ++ "." ++ btick ++ scn ++ btick) then
            some { source_table := source_asset.id, source_column := sc.name,
                   target_table := target_asset.id, target_column := tc.name,
                   relationship_type := "cross_table_sql",
                   contains_pii := (detect_pii_in_column sc.name sc.description).1,
                   data_quality_score :=
                     (get_column_quality_score sc + get_column_quality_score tc) / 2,
                   impact_score := 9 }
          else none))
    else if source_sql ≠ "" ∧ strContains (pyLower source_sql) tName then
      source_asset.columns.flatMap (fun sc =>
        target_asset.columns.filterMap (fun tc =>
          let tcn := pyLower tc.name
          if strContains (pyLower source_sql) (tName ++ "." ++ tcn) ∨
             strContains (pyLower source_sql) (btick ++ tName ++ btick ++ "." ++ btick ++ tcn ++ btick) then
            some { source_table := source_asset.id, source_column := sc.name,
                   target_table := target_asset.id, target_column := tc.name,
                   relationship_type := "cross_table_sql",
                   contains_pii := (detect_pii_in_column sc.name sc.description).1,
                   data_quality_score :=
                     (get_column_quality_score sc + get_column_quality_score tc) / 2,
                   impact_score := 9 }
          else none))
    else []

/-- The `is_used` / `relationship_type` decision chain of
`build_column_lineage_from_usage` for one (source column, target column) pair:
`some (relationship_type, impact_score)` when a usage pattern fires.
Column names arrive already lower-cased. -/
def usageRelationship (source_sql target_sql : String) (scn tcn : String) :
    Option (String × Int) :=
  let tL := pyLower target_sql
  let sL := pyLower source_sql
  if target_sql ≠ "" ∧ strContains tL scn then some ("sql_reference", 10)
  else if source_sql ≠ "" ∧ strContains sL tcn then some ("sql_derived", 8)
  else if ["select ", "from ", "join ", "where ", "group by ", "order by "].any
      (fun p => strContains tL (p ++ scn)) then some ("sql_transformation", 6)
  else if ["count(", "sum(", "avg(", "min(", "max("].any
      (fun p => strContains tL (p ++ scn ++ ")")) then some ("aggregation", 6)
  else if ["upper(", "lower(", "trim("].any (fun p => strContains tL (p ++ scn ++ ")")) ∨
      strContains tL ("substring(" ++ scn) ∨ strContains tL ("concat(" ++ scn) then
    some ("string_transform", 6)
  else if strContains tL ("date(" ++ scn ++ ")") ∨ strContains tL ("extract(" ++ scn) ∨
      strContains tL ("format_date(" ++ scn) then some ("date_transform", 6)
  else none

/-- `build_column_lineage_from_usage(source_asset, target_asset, discovered_assets)`:
cross-table SQL analysis followed by direct usage-based matching. No name-based
fallback exists ("No fallback - only return relationships found through actual
SQL usage"). -/
def build_column_lineage_from_usage (source_asset target_asset : Asset)
    (discovered : List Asset) : List ColumnLineage :=
  if source_asset.columns = [] ∨ target_asset.columns = [] then []
  else
    let source_sql := sqlOrDef source_asset
    let target_sql := sqlOrDef target_asset
    let cross := analyze_cross_table_sql_relationships source_asset target_asset discovered
    let direct := target_asset.columns.flatMap (fun tc =>
      source_asset.columns.filterMap (fun sc =>
        match usageRelationship source_sql target_sql (pyLower sc.name) (pyLower tc.name) with
        | none => none
        | some (rel, imp) =>
          some { source_table := source_asset.id, source_column := sc.name,
                 target_table := target_asset.id, target_column := tc.name,
                 relationship_type := rel,
                 contains_pii := (detect_pii_in_column sc.name sc.description).1,
                 data_quality_score :=
                   (get_column_quality_score sc + get_column_quality_score tc) / 2,
                 impact_score := imp }))
    cross ++ direct

/-- `build_column_lineage_from_metadata(source_asset, target_asset)`:
usage-based matching only, with an empty `discovered_assets` list. -/
def build_column_lineage_from_metadata (source_asset target_asset : Asset) : List ColumnLineage :=
  build_column_lineage_from_usage source_asset target_asset []

/-- The ID-column naming patterns of `get_starburst_table_lineage`. -/
def idNamePattern (lname : String) : Bool :=
  strContains lname "_id" || strContains lname "_key" ||
  strContains lname "id_" || strContains lname "key_"

/-- `get_starburst_table_lineage(asset, discovered_assets)`: `(tables,
transformations)` from declared foreign keys, shared ID-pattern columns and
ETL/ELT table-name conventions. The appended pairs keep the source's order:
foreign keys first, then ID relationships, then pipeline patterns. -/
def get_starburst_table_lineage (asset : Asset) (discovered : List Asset) :
    List String × List Transformation :=
  if asset.type_ ≠ "Table" then ([], [])
  else
    let fkPart : List (String × Transformation) := asset.foreign_keys.filterMap (fun fk =>
      match fk.referenced_table with
      | none => none
      | some ref =>
        match discovered.find? (fun o =>
            o.catalog = asset.catalog ∧ o.schema = asset.schema ∧ o.name = ref) with
        | some _ =>
          let refId := asset.catalog ++ "." ++ asset.schema ++ "." ++ ref
          some (refId, { type_ := "FOREIGN_KEY", category := "constraint",
                         source_table := refId, target_table := asset.id,
                         columns := fk.columns })
        | none => none)
    let idPart : List (String × Transformation) := asset.columns.flatMap (fun col =>
      let cn := pyLower col.name
      if idNamePattern cn then
        discovered.flatMap (fun o =>
          if o.id ≠ asset.id ∧ o.type_ = "Table" ∧ o.catalog = asset.catalog then
            o.columns.filterMap (fun oc =>
              let ocn := pyLower oc.name
              if col.type_ = oc.type_ ∧ idNamePattern ocn ∧ cn ≠ ocn then
                some (o.id, { type_ := "ID_RELATIONSHIP", category := "metadata",
                              source_table := o.id, target_table := asset.id,
                              columns := [cn, ocn] })
              else none)
          else [])
      else [])
    let tn := pyLower asset.name
    let etlPart : List (String × Transformation) := discovered.flatMap (fun o =>
      if o.id ≠ asset.id ∧ o.type_ = "Table" ∧ o.catalog = asset.catalog then
        let on_ := pyLower o.name
        if (strContains tn "raw" ∨ strContains tn "source") ∧
           (strContains on_ "processed" ∨ strContains on_ "stage") then
          [(o.id, { type_ := "ETL_PIPELINE", category := "pipeline",
                    source_table := asset.id, target_table := o.id })]
        else if (strContains tn "stage" ∨ strContains tn "staging") ∧
           (strContains on_ "analytics" ∨ strContains on_ "final" ∨ strContains on_ "prod") then
          [(o.id, { type_ := "ELT_PIPELINE", category := "pipeline",
                    source_table := asset.id, target_table := o.id })]
        else []
      else [])
    let all := fkPart ++ idPart ++ etlPart
    (all.map (·.1), all.map (·.2))

/-- `_require_role(role, headers)` where the caller passes
`{'x-role': x_role}`: `true` iff no 403 is raised. Both sides are
lower-cased before comparison, and an empty required role always passes. -/
def require_role_ok (role : String) (x_role : Option String) : Bool :=
  let required := pyLower role
  let got := pyLower (x_role.getD "")
  !(required != "" && got != required)

/-- The `LineageNode` pydantic model. -/
structure LineageNode where
  id : String
  name : String
  type_ : String
  catalog : String
  connector_id : String
  source_system : String
  columns : List PyColumn
  deriving DecidableEq

/-- The `LineageEdge` pydantic model, minus `edge_signature` (environment-keyed
HMAC, not mentioned by any claim). `last_validated`, `created_at` and
`updated_at` all receive the build timestamp `now`. -/
structure LineageEdge where
  source : String
  target : String
  relationship : String
  column_lineage : List ColumnLineage
  total_pii_columns : Nat
  avg_data_quality : ℚ
  last_validated : Nat
  validation_status : String
  confidence_score : ℚ
  evidence : List String
  sources : List String
  created_at : Nat
  updated_at : Nat
  deriving DecidableEq

/-- The part of `LineageResponse` the claims are about (the derived aggregate
counters are not modelled). -/
structure LineageResponse where
  nodes : List LineageNode
  edges : List LineageEdge
  deriving DecidableEq

/-- The node constructed by `get_data_lineage` for one active Table/View asset. -/
def mkLineageNode (a : Asset) : LineageNode :=
  { id := a.id, name := a.name, type_ := a.type_, catalog := a.catalog,
    connector_id := a.connector_id,
    source_system :=
      if strStartsWith a.connector_id "bq_" then "BigQuery"
      else if strStartsWith a.connector_id "starburst_" then "Starburst Galaxy"
      else "Unknown",
    columns := a.columns }

/-- Assets surviving the active-connector filter with type Table or View
(the entries of `asset_map`, in insertion order). -/
def activeTableViewAssets (discovered : List Asset) (activeIds : List String) : List Asset :=
  discovered.filter (fun a =>
    activeIds.contains a.connector_id ∧ (a.type_ = "Table" ∨ a.type_ = "View"))

/-- `asset_map[asset_id]` (Python dict lookup: the last asset written wins). -/
def assetMapLookup (discovered : List Asset) (activeIds : List String) (id : String) :
    Option Asset :=
  (activeTableViewAssets discovered activeIds).reverse.find? (fun a => a.id = id)

/-- Strategy 1 of `get_data_lineage`: SQL-based lineage for View assets.
`viewLin` abstracts `get_bigquery_view_lineage` / `get_starburst_view_lineage`
(network / regex-extraction I/O); it is consulted only for `bq_` / `starburst_`
connectors, exactly as the source dispatches. `logsImply` abstracts
`_logs_imply_relationship` (query-log file I/O). -/
def strategy1Edges (discovered : List Asset) (activeIds : List String)
    (viewLin : Asset → List String × List Transformation)
    (logsImply : String → String → Bool) (now : Nat) : List LineageEdge :=
  (discovered.filter (fun a => activeIds.contains a.connector_id ∧ a.type_ = "View")).flatMap
    (fun v =>
      let lr :=
        if strStartsWith v.connector_id "bq_" ∨ strStartsWith v.connector_id "starburst_" then
          viewLin v
        else ([], [])
      let transformations := lr.2
      lr.1.filterMap (fun up =>
        match assetMapLookup discovered activeIds up with
        | none => none
        | some src =>
          let column_lineage := build_column_lineage_from_metadata src v
          let relationship :=
            if transformations ≠ [] then
              "feeds_into (transforms: " ++
                joinCommaSep ((transformations.map (·.type_)).take 3) ++ ")"
            else "feeds_into"
          let pii_count := (column_lineage.filter (·.contains_pii)).length
          let avg_quality : ℚ :=
            if column_lineage ≠ [] then
              ((column_lineage.map (·.data_quality_score)).sum : ℚ) / column_lineage.length
            else 95
          let trans_plus :=
            transformations ++ (if logsImply up v.id then [queryLogTrans] else [])
          let conf := compute_edge_confidence "feeds_into" column_lineage trans_plus
          some { source := up, target := v.id, relationship := relationship,
                 column_lineage := column_lineage, total_pii_columns := pii_count,
                 avg_data_quality := round2 avg_quality, last_validated := now,
                 validation_status := "valid", confidence_score := round3 conf.1,
                 evidence := conf.2, sources := ["view_sql"],
                 created_at := now, updated_at := now }))

/-- The column lineage Strategy 1.5 derives from the transformations matching
one (upstream, asset) pair: two mappings per FK/ID transformation carrying at
least two column names (`columns[0] -> columns[1]` and their `_ref` shadows). -/
def strat15TransCl (upstream_id : String) (asset : Asset) (src : Asset)
    (transformations : List Transformation) : List ColumnLineage :=
  transformations.flatMap (fun tr =>
    if tr.target_table = asset.id ∧ tr.source_table = upstream_id ∧ 2 ≤ tr.columns.length then
      let c0 := tr.columns.headD ""
      let c1 := (tr.columns.drop 1).headD ""
      [{ source_table := upstream_id, source_column := c0,
         target_table := asset.id, target_column := c1,
         relationship_type := pyLower tr.type_,
         contains_pii := (detect_pii_in_column c0 "").1,
         data_quality_score :=
           (get_enterprise_data_quality_score { name := c0, type_ := "VARCHAR" } src +
            get_enterprise_data_quality_score { name := c1, type_ := "VARCHAR" } asset) / 2,
         impact_score := 10 },
       { source_table := upstream_id, source_column := c0 ++ "_ref",
         target_table := asset.id, target_column := c1 ++ "_ref",
         relationship_type := pyLower tr.type_,
         contains_pii := (detect_pii_in_column (c0 ++ "_ref") "").1,
         data_quality_score :=
           (get_enterprise_data_quality_score { name := c0 ++ "_ref", type_ := "VARCHAR" } src +
            get_enterprise_data_quality_score { name := c1 ++ "_ref", type_ := "VARCHAR" } asset) / 2,
         impact_score := 10 }]
    else [])

/-- Last-written value of a name in a `{c['name']: c}` dict comprehension. -/
def colDictLookup (cols : List PyColumn) (n : String) : Option PyColumn :=
  cols.reverse.find? (fun c => c.name = n)

/-- Strategy 1.5's fallback: infer up to three same-named ID column mappings
(`id`, `*_id`, `*id_*`) between the two assets' column dicts. -/
def strat15FallbackCl (upstream_id : String) (asset : Asset) (src : Asset) :
    List ColumnLineage :=
  let keys := dedupFirst [] (src.columns.map (·.name))
  let inferred := keys.filter (fun n =>
    let ln := pyLower n
    (ln = "id" ∨ strEndsWith ln "_id" ∨ strContains ln "id_") ∧
      (asset.columns.map (·.name)).contains n)
  (inferred.take 3).map (fun n =>
    let scol := (colDictLookup src.columns n).getD {}
    let tcol := (colDictLookup asset.columns n).getD {}
    { source_table := upstream_id, source_column := n,
      target_table := asset.id, target_column := n,
      relationship_type := "id_inference",
      contains_pii := (detect_pii_in_column n scol.description).1,
      data_quality_score :=
        (get_enterprise_data_quality_score { name := n, type_ := scol.type_ } src +
         get_enterprise_data_quality_score { name := n, type_ := tcol.type_ } asset) / 2,
      impact_score := 4 })

/-- Strategy 1.5 of `get_data_lineage`: table-level lineage for Starburst Table
assets (foreign keys, ID relationships, pipeline naming), with the ID-inference
fallback. Note `get_starburst_table_lineage` receives the *full* discovered
list, while membership of an upstream id is checked against `asset_map`. -/
def strategy15Edges (discovered : List Asset) (activeIds : List String)
    (logsImply : String → String → Bool) (now : Nat) : List LineageEdge :=
  (discovered.filter (fun a =>
      activeIds.contains a.connector_id ∧ a.type_ = "Table" ∧
        strStartsWith a.connector_id "starburst_")).flatMap
    (fun asset =>
      let tl := get_starburst_table_lineage asset discovered
      let transformations := tl.2
      tl.1.filterMap (fun up =>
        match assetMapLookup discovered activeIds up with
        | none => none
        | some src =>
          let clA := strat15TransCl up asset src transformations
          let column_lineage := if clA = [] then strat15FallbackCl up asset src else clA
          if column_lineage = [] then none
          else
            let pii_count := (column_lineage.filter (·.contains_pii)).length
            let avg_quality : ℚ :=
              ((column_lineage.map (·.data_quality_score)).sum : ℚ) / column_lineage.length
            let relationship_type :=
              if transformations.any (fun t => t.type_ = "ETL_PIPELINE") then "etl_pipeline"
              else if transformations.any (fun t => t.type_ = "ELT_PIPELINE") then "elt_pipeline"
              else if transformations.any (fun t => t.type_ = "ID_RELATIONSHIP") then
                "id_relationship"
              else "foreign_key"
            let trans_plus :=
              transformations ++ (if logsImply up asset.id then [queryLogTrans] else [])
            let conf := compute_edge_confidence relationship_type column_lineage trans_plus
            some { source := up, target := asset.id, relationship := relationship_type,
                   column_lineage := column_lineage, total_pii_columns := pii_count,
                   avg_data_quality := round2 avg_quality, last_validated := now,
                   validation_status := "valid", confidence_score := round3 conf.1,
                   evidence := conf.2, sources := ["starburst_metadata"],
                   created_at := now, updated_at := now }))

/-- The candidate edge Strategy 2 computes for one in-catalog asset pair,
before the duplicate check: `none` when fewer than two shared column mappings
are found. Directionality and the ETL/ELT flags follow the source's
naming-pattern blocks in order. -/
def strat2Candidate (discovered : List Asset)
    (logsImply : String → String → Bool) (now : Nat) (a1 a2 : Asset) :
    Option LineageEdge :=
  let column_lineage := build_column_lineage_from_usage a1 a2 discovered
  if 2 ≤ column_lineage.length then
    let n1 := pyLower a1.name
    let n2 := pyLower a2.name
    let raw1 := strContains n1 "raw" ∨ strContains n1 "landing" ∨ strContains n1 "source"
    let ps2 := strContains n2 "processed" ∨ strContains n2 "stage" ∨ strContains n2 "staged"
    let ar2 := strContains n2 "analytics" ∨ strContains n2 "report" ∨ strContains n2 "summary"
    let stage1 := strContains n1 "stage" ∨ strContains n1 "staging"
    let afp2 := strContains n2 "analytics" ∨ strContains n2 "final" ∨ strContains n2 "production"
    let swapCond := (strContains n2 "raw" ∨ strContains n2 "source") ∧
      (strContains n1 "prod" ∨ strContains n1 "analytics")
    let is_etl := (raw1 ∧ ps2) ∨ swapCond
    let is_elt := (raw1 ∧ ¬ps2 ∧ ar2) ∨ (stage1 ∧ afp2)
    let st :=
      if swapCond then (a2.id, a1.id)
      else if a1.type_ = "View" ∧ a2.type_ = "Table" then (a2.id, a1.id)
      else (a1.id, a2.id)
    let pii_count := (column_lineage.filter (·.contains_pii)).length
    let avg_quality : ℚ :=
      if column_lineage ≠ [] then
        ((column_lineage.map (·.data_quality_score)).sum : ℚ) / column_lineage.length
      else 95
    let relationship_type :=
      if is_etl then "etl_pipeline"
      else if is_elt then "elt_pipeline"
      else "inferred_from_metadata"
    let trans_plus := if logsImply st.1 st.2 then [queryLogTrans] else []
    let conf := compute_edge_confidence relationship_type column_lineage trans_plus
    some { source := st.1, target := st.2, relationship := relationship_type,
           column_lineage := column_lineage, total_pii_columns := pii_count,
           avg_data_quality := round2 avg_quality, last_validated := now,
           validation_status := "inferred", confidence_score := round3 conf.1,
           evidence := conf.2, sources := ["metadata_inference"],
           created_at := now, updated_at := now }
  else none

/-- One Strategy 2 insertion step: append the candidate unless an edge with the
same ordered `(source, target)` pair already exists. -/
def strat2Step (discovered : List Asset) (logsImply : String → String → Bool) (now : Nat)
    (acc : List LineageEdge) (p : Asset × Asset) : List LineageEdge :=
  match strat2Candidate discovered logsImply now p.1 p.2 with
  | none => acc
  | some e =>
    if acc.any (fun e' => e'.source = e.source ∧ e'.target = e.target) then acc
    else acc ++ [e]

/-- The ordered pairs `(assets[i], assets[j])`, `i < j`, of one catalog group. -/
def orderedPairs : List Asset → List (Asset × Asset)
  | [] => []
  | a :: rest => rest.map (fun b => (a, b)) ++ orderedPairs rest

/-- All Strategy 2 pairs: catalogs in first-appearance order, in-catalog pairs
in list order (`tables_by_catalog` iteration). -/
def strategy2Pairs (discovered : List Asset) (activeIds : List String) :
    List (Asset × Asset) :=
  let grouped := activeTableViewAssets discovered activeIds
  (dedupFirst [] (grouped.map (·.catalog))).flatMap (fun c =>
    orderedPairs (grouped.filter (fun a => a.catalog = c)))

/-- The full assembled `(nodes, edges)` of `get_data_lineage` before temporal
filtering and pagination. Strategy 2 runs only when the SQL/structural
strategies produced fewer than 50 edges. -/
def assembleGraph (discovered : List Asset) (activeIds : List String)
    (viewLin : Asset → List String × List Transformation)
    (logsImply : String → String → Bool) (now : Nat) :
    List LineageNode × List LineageEdge :=
  let nodes := (activeTableViewAssets discovered activeIds).map mkLineageNode
  let edges01 := strategy1Edges discovered activeIds viewLin logsImply now ++
    strategy15Edges discovered activeIds logsImply now
  let edges :=
    if edges01.length < 50 then
      (strategy2Pairs discovered activeIds).foldl (strat2Step discovered logsImply now) edges01
    else edges01
  (nodes, edges)

/-- The optional `as_of` temporal filter: keep edges with `created_at ≤ T`,
then keep only nodes still referenced by a surviving edge. -/
def applyAsOf (asOf : Option Nat) (nodes : List LineageNode) (edges : List LineageEdge) :
    List LineageNode × List LineageEdge :=
  match asOf with
  | none => (nodes, edges)
  | some t =>
    let kept := edges.filter (fun e => e.created_at ≤ t)
    let keptIds := kept.map (·.source) ++ kept.map (·.target)
    (nodes.filter (fun n => keptIds.contains n.id), kept)

/-- `page_size_int`: `int(page_size) if page_size else 1000` — a zero
`page_size` falls back to 1000 (so 0 disables pagination only for graphs of
under 1000 nodes). -/
def pageSizeInt (page_size : Nat) : Nat := if page_size = 0 then 1000 else page_size

/-- Pagination: a node page is cut and edges are restricted to pairs inside
the page — but only when `0 < page_size_int < len(nodes)`. -/
def applyPagination (page page_size : Nat) (nodes : List LineageNode)
    (edges : List LineageEdge) : List LineageNode × List LineageEdge :=
  if 0 < pageSizeInt page_size ∧ pageSizeInt page_size < nodes.length then
    (((nodes.drop (page * pageSizeInt page_size)).take (pageSizeInt page_size)),
      edges.filter (fun e =>
        (((nodes.drop (page * pageSizeInt page_size)).take (pageSizeInt page_size)).map
            (·.id)).contains e.source ∧
        (((nodes.drop (page * pageSizeInt page_size)).take (pageSizeInt page_size)).map
            (·.id)).contains e.target))
  else (nodes, edges)

/-- `get_data_lineage(page, page_size, as_of)`: assembly, temporal filter,
pagination. (The GraphStore upsert and snapshot write between these steps do
not affect the response; aggregate counters are not modelled.) -/
def get_data_lineage (discovered : List Asset) (activeIds : List String)
    (viewLin : Asset → List String × List Transformation)
    (logsImply : String → String → Bool) (now : Nat)
    (page page_size : Nat) (asOf : Option Nat) : LineageResponse :=
  let g := assembleGraph discovered activeIds viewLin logsImply now
  let f := applyAsOf asOf g.1 g.2
  let p := applyPagination page page_size f.1 f.2
  { nodes := p.1, edges := p.2 }

/-- The JSON-backend store document of `graph_store.py`: `nodes` is a dict
keyed by node id (modelled as an association list), `edges` is a plain list. -/
structure JsonStore (ν ε : Type) where
  nodes : List (String × ν)
  edges : List ε
  deriving DecidableEq

/-- Does the association list contain the key? -/
def containsK {α : Type} (m : List (String × α)) (k : String) : Bool :=
  m.any (fun p => p.1 = k)

/-- Overwrite the value at an existing key (dict assignment keeps the key's
original position). -/
def replaceK {α : Type} (k : String) (v : α) (m : List (String × α)) :
    List (String × α) :=
  m.map (fun p => if p.1 = k then (k, v) else p)

/-- Python dict assignment `store['nodes'][n['id']] = n`. -/
def dictInsert {α : Type} (m : List (String × α)) (k : String) (v : α) :
    List (String × α) :=
  if containsK m k then replaceK k v m else m ++ [(k, v)]

/-- `GraphStore.upsert_nodes` (JSON backend): assign each node into the node
dict under `key n`. -/
def upsert_nodes {ν ε : Type} (key : ν → String) (s : JsonStore ν ε) (ns : List ν) :
    JsonStore ν ε :=
  { s with nodes := ns.foldl (fun m n => dictInsert m (key n) n) s.nodes }

/-- `GraphStore.upsert_edges` (JSON backend): `store['edges'].extend(edges)`. -/
def upsert_edges {ν ε : Type} (s : JsonStore ν ε) (es : List ε) : JsonStore ν ε :=
  { s with edges := s.edges ++ es }

/-- All entries of an association list at key `k` are exactly `(k, v)`
(auxiliary invariant for the upsert idempotence proof). -/
def AllAt {α : Type} (m : List (String × α)) (k : String) (v : α) : Prop :=
  ∀ p ∈ m, p.1 = k → p = (k, v)

/-- One OpenLineage dataset reference (`name` / `namespace`; "" when absent). -/
structure OLDataset where
  name : String := ""
  nspace : String := ""
  deriving DecidableEq

/-- One stored OpenLineage entry (`{'event': {...}}`). -/
structure OLEntry where
  inputs : List OLDataset := []
  outputs : List OLDataset := []
  deriving DecidableEq

/-- One dbt manifest node (`{'name': ..., 'depends_on': [...]}`). -/
structure DbtNode where
  name : String := ""
  depends_on : List String := []
  deriving DecidableEq

/-- One stored dbt batch. -/
structure DbtBatch where
  nodes : List DbtNode := []
  deriving DecidableEq

/-- One Airflow task hint (`{'task_id': ..., 'upstream': [...]}`). -/
structure AirflowTask where
  task_id : String := ""
  upstream : List String := []
  deriving DecidableEq

/-- One metadata relationship (`{'source', 'target', 'type'}`; `type` may be
absent, in which case the adapter defaults it). -/
structure MetaRel where
  source : String := ""
  target : String := ""
  type_ : Option String := none
  deriving DecidableEq

/-- The raw ingested batches a reconciliation run reads from the store file. -/
structure IngestStore where
  openlineage : List OLEntry := []
  dbt : List DbtBatch := []
  airflow : List (List AirflowTask) := []
  metadata : List (List MetaRel) := []
  deriving DecidableEq

/-- The edge record every reconciler adapter emits (constant fields included;
`edge_signature` is the environment-keyed HMAC, omitted as I/O). -/
structure ReconEdge where
  source : String
  target : String
  relationship : String
  column_lineage : List ColumnLineage := []
  total_pii_columns : Nat := 0
  avg_data_quality : ℚ := 95
  validation_status : String := "valid"
  confidence_score : ℚ
  evidence : List String
  sources : List String
  created_at : Nat
  deriving DecidableEq

/-- `_reconcile_openlineage_to_edges`: one edge per (input, output) pair of
every stored event, confidence 0.8. A dataset's name falls back to its
namespace; a pair with an empty resolved name is skipped. -/
def reconcile_openlineage_to_edges (now : Nat) (store : IngestStore) : List ReconEdge :=
  store.openlineage.flatMap (fun evt =>
    evt.inputs.flatMap (fun inp =>
      let s := if inp.name ≠ "" then inp.name else inp.nspace
      if s = "" then []
      else evt.outputs.filterMap (fun out =>
        let t := if out.name ≠ "" then out.name else out.nspace
        if t = "" then none
        else some { source := s, target := t, relationship := "openlineage_job",
                    confidence_score := 0.8, evidence := ["openlineage"],
                    sources := ["openlineage"], created_at := now })))

/-- `_reconcile_dbt_to_edges`: one edge per `depends_on` entry of every node
of every stored batch, confidence 0.75; nodes without a name and empty
dependency strings are skipped. -/
def reconcile_dbt_to_edges (now : Nat) (store : IngestStore) : List ReconEdge :=
  store.dbt.flatMap (fun batch =>
    batch.nodes.flatMap (fun node =>
      if node.name = "" then []
      else node.depends_on.filterMap (fun dep =>
        if dep = "" then none
        else some { source := dep, target := node.name,
                    relationship := "dbt_dependency", confidence_score := 0.75,
                    evidence := ["dbt"], sources := ["dbt"], created_at := now })))

/-- `_reconcile_airflow_to_edges`: one edge per upstream of every task of
every stored batch, confidence 0.6; empty upstream or task id is skipped. -/
def reconcile_airflow_to_edges (now : Nat) (store : IngestStore) : List ReconEdge :=
  store.airflow.flatMap (fun tasks =>
    tasks.flatMap (fun task =>
      task.upstream.filterMap (fun up =>
        if up = "" ∨ task.task_id = "" then none
        else some { source := up, target := task.task_id,
                    relationship := "airflow_upstream", confidence_score := 0.6,
                    evidence := ["airflow"], sources := ["airflow"], created_at := now })))

/-- `_reconcile_metadata_to_edges`: one edge per relationship record of every
stored batch payload, confidence 0.7, relationship defaulting to
`metadata_relationship`; records missing source or target are skipped. -/
def reconcile_metadata_to_edges (now : Nat) (store : IngestStore) : List ReconEdge :=
  store.metadata.flatMap (fun rels =>
    rels.filterMap (fun r =>
      if r.source = "" ∨ r.target = "" then none
      else some { source := r.source, target := r.target,
                  relationship := r.type_.getD "metadata_relationship",
                  confidence_score := 0.7, evidence := ["metadata"],
                  sources := ["metadata"], created_at := now }))

/-- A column mapping with `impact_score = 10` (the worked example's shape). -/
def fkMapping : ColumnLineage :=
  { source_table := "s", source_column := "c1", target_table := "t",
    target_column := "c2", relationship_type := "direct_match",
    contains_pii := false, data_quality_score := 95, impact_score := 10 }

/-- The trivial view-lineage oracle: no view SQL is resolvable. -/
def noViewLin : Asset → List String × List Transformation := fun _ => ([], [])

/-- The trivial query-log oracle: the log file implies no relationship. -/
def noLogs : String → String → Bool := fun _ _ => false

/-- Table `a` of the end-to-end scenario: columns `id`, `email`, no SQL. -/
def c3AssetA : Asset :=
  { id := "cat.sch.a", name := "a", type_ := "Table", catalog := "cat",
    schema := "sch", connector_id := "starburst_1",
    columns := [{ name := "id", type_ := "INTEGER" },
                { name := "email", type_ := "VARCHAR" }] }

/-- Table `b` of the end-to-end scenario: columns `id`, `user_email`, no SQL. -/
def c3AssetB : Asset :=
  { id := "cat.sch.b", name := "b", type_ := "Table", catalog := "cat",
    schema := "sch", connector_id := "starburst_1",
    columns := [{ name := "id", type_ := "INTEGER" },
                { name := "user_email", type_ := "VARCHAR" }] }

/-- The graph built from `a` and `b` alone (active Starburst connector, no
views, no query logs, default pagination, no `as_of`). -/
def c3Run : LineageResponse :=
  get_data_lineage [c3AssetA, c3AssetB] ["starburst_1"] noViewLin noLogs 0 0 1000 none

/-- A Starburst table with two ID-pattern columns of one type. -/
def c7AssetT1 : Asset :=
  { id := "cat.sch.t1", name := "t1", type_ := "Table", catalog := "cat",
    schema := "sch", connector_id := "starburst_1",
    columns := [{ name := "x_id", type_ := "INTEGER" },
                { name := "y_id", type_ := "INTEGER" }] }

/-- A second Starburst table sharing both ID-pattern columns with `t1`. -/
def c7AssetT2 : Asset :=
  { id := "cat.sch.t2", name := "t2", type_ := "Table", catalog := "cat",
    schema := "sch", connector_id := "starburst_1",
    columns := [{ name := "x_id", type_ := "INTEGER" },
                { name := "y_id", type_ := "INTEGER" }] }

/-- The graph built from `t1` and `t2` (no temporal filter, no pagination). -/
def c7Run : LineageResponse :=
  get_data_lineage [c7AssetT1, c7AssetT2] ["starburst_1"] noViewLin noLogs 0 0 1000 none

/-- The same build as `c7Run`, retrieved with `as_of = 5` and `page_size = 1`. -/
def c8Run : LineageResponse :=
  get_data_lineage [c7AssetT1, c7AssetT2] ["starburst_1"] noViewLin noLogs 0 0 1 (some 5)

/-- Two tables that share the column `id` with identical types but carry no
SQL text (exact-name-match probe for the Column Matcher). -/
def c2AssetP : Asset :=
  { id := "cat.sch.p", name := "p", type_ := "Table", catalog := "cat",
    schema := "sch", connector_id := "starburst_1",
    columns := [{ name := "id", type_ := "INTEGER" }] }

/-- The partner asset of `c2AssetP`, with the same `id` column. -/
def c2AssetQ : Asset :=
  { id := "cat.sch.q", name := "q", type_ := "Table", catalog := "cat",
    schema := "sch", connector_id := "starburst_1",
    columns := [{ name := "id", type_ := "INTEGER" }] }

/-- A concrete stored edge for the GraphStore experiments. -/
def c6Edge : ReconEdge :=
  { source := "a", target := "b", relationship := "manual",
    confidence_score := 1, evidence := [], sources := [], created_at := 0 }

/-- An initially empty JSON store document. -/
def c6Store : JsonStore LineageNode ReconEdge := { nodes := [], edges := [] }

/-- A stored dbt batch with `nodes = [{name: "b", depends_on: ["a"]}]`. -/
def c9Store : IngestStore :=
  { dbt := [{ nodes := [{ name := "b", depends_on := ["a"] }] }] }

/-! ### Auxiliary lemmas -/

theorem strContains_empty_hay (n : String) (h : n.data ≠ []) : strContains "" n = false := by
  unfold strContains listIsInfixC
  cases hd : n.data with
  | nil => exact absurd hd h
  | cons c cs => simp [listIsPrefixC, hd]

theorem data_append_ne_nil (p s : String) (h : p.data ≠ []) : (p ++ s).data ≠ [] := by
  show (p.data ++ s.data) ≠ []
  simp [h]

/-- With both SQL texts empty, no usage pattern can fire for any column pair. -/
theorem usageRelationship_empty (a b : String) : usageRelationship "" "" a b = none := by
  unfold usageRelationship
  have hc : ∀ (p s : String), p.data ≠ [] → strContains "" (p ++ s) = false := fun p s hp =>
    strContains_empty_hay _ (data_append_ne_nil p s hp)
  simp only [ne_eq, not_true_eq_false, false_and, if_false, List.any_cons, List.any_nil,
    show pyLower "" = "" from rfl]
  rw [hc "select " a (by decide), hc "from " a (by decide), hc "join " a (by decide),
    hc "where " a (by decide), hc "group by " a (by decide), hc "order by " a (by decide),
    hc ("count(" ++ a) ")" (data_append_ne_nil "count(" a (by decide)),
    hc ("sum(" ++ a) ")" (data_append_ne_nil "sum(" a (by decide)),
    hc ("avg(" ++ a) ")" (data_append_ne_nil "avg(" a (by decide)),
    hc ("min(" ++ a) ")" (data_append_ne_nil "min(" a (by decide)),
    hc ("max(" ++ a) ")" (data_append_ne_nil "max(" a (by decide)),
    hc ("upper(" ++ a) ")" (data_append_ne_nil "upper(" a (by decide)),
    hc ("lower(" ++ a) ")" (data_append_ne_nil "lower(" a (by decide)),
    hc ("trim(" ++ a) ")" (data_append_ne_nil "trim(" a (by decide)),
    hc "substring(" a (by decide), hc "concat(" a (by decide),
    hc ("date(" ++ a) ")" (data_append_ne_nil "date(" a (by decide)),
    hc "extract(" a (by decide), hc "format_date(" a (by decide)]
  simp

/-- The tier scan returns `True` iff the tier is not `NONE`, and only emits
tiers from the table (or `NONE`). -/
theorem detectPiiAux_spec (c : String) (pats : List (String × List String))
    (hp : ∀ p ∈ pats, p.1 ≠ "NONE") :
    ((detectPiiAux c pats).1 = true ↔ (detectPiiAux c pats).2 ≠ "NONE") ∧
      (detectPiiAux c pats).2 ∈ "NONE" :: pats.map (·.1) := by
  induction pats with
  | nil => simp [detectPiiAux]
  | cons p rest ih =>
    obtain ⟨tier, ps⟩ := p
    have htier : tier ≠ "NONE" := hp ⟨tier, ps⟩ (by simp)
    have ih2 := ih (fun q hq => hp q (List.mem_cons_of_mem _ hq))
    by_cases hm : (ps.any (fun p => strContains c p)) = true
    · simp [detectPiiAux, hm, htier]
    · simp only [detectPiiAux, hm, if_false, Bool.false_eq_true, if_neg, not_false_iff]
      refine ⟨ih2.1, ?_⟩
      rcases List.mem_cons.mp ih2.2 with h1 | h2
      · simp [h1]
      · simp only [List.map_cons, List.mem_cons]
        right; right
        simpa using h2

theorem reconcile_openlineage_confidence (now : Nat) (store : IngestStore) :
    ∀ e ∈ reconcile_openlineage_to_edges now store, e.confidence_score = 0.8 := by
  intro e he
  simp only [reconcile_openlineage_to_edges, List.mem_flatMap] at he
  obtain ⟨evt, hevt, inp, hinp, he⟩ := he
  repeat' split at he
  all_goals first
  | exact absurd he (List.not_mem_nil e)
  | (rw [List.mem_filterMap] at he
     obtain ⟨a, ha, heq⟩ := he
     repeat' split at heq
     all_goals (cases heq; try rfl))

theorem reconcile_dbt_confidence (now : Nat) (store : IngestStore) :
    ∀ e ∈ reconcile_dbt_to_edges now store, e.confidence_score = 0.75 := by
  intro e he
  simp only [reconcile_dbt_to_edges, List.mem_flatMap] at he
  obtain ⟨b, hb, n, hn, he⟩ := he
  repeat' split at he
  all_goals first
  | exact absurd he (List.not_mem_nil e)
  | (rw [List.mem_filterMap] at he
     obtain ⟨a, ha, heq⟩ := he
     repeat' split at heq
     all_goals (cases heq; try rfl))

theorem reconcile_airflow_confidence (now : Nat) (store : IngestStore) :
    ∀ e ∈ reconcile_airflow_to_edges now store, e.confidence_score = 0.6 := by
  intro e he
  simp only [reconcile_airflow_to_edges, List.mem_flatMap] at he
  obtain ⟨ts, hts, task, htask, he⟩ := he
  rw [List.mem_filterMap] at he
  obtain ⟨up, hup, heq⟩ := he
  repeat' split at heq
  all_goals (cases heq; try rfl)

theorem reconcile_metadata_confidence (now : Nat) (store : IngestStore) :
    ∀ e ∈ reconcile_metadata_to_edges now store, e.confidence_score = 0.7 := by
  intro e he
  simp only [reconcile_metadata_to_edges, List.mem_flatMap] at he
  obtain ⟨rels, hrels, he⟩ := he
  rw [List.mem_filterMap] at he
  obtain ⟨r, hr, heq⟩ := he
  repeat' split at heq
  all_goals (cases heq; try rfl)

theorem containsK_replaceK {α : Type} (k k' : String) (v : α) (m : List (String × α)) :
    containsK (replaceK k v m) k' = containsK m k' := by
  unfold containsK replaceK
  rw [List.any_map]
  congr 1
  funext p
  by_cases h : p.1 = k <;> simp [h]

theorem replaceK_replaceK {α : Type} (k : String) (v v' : α) (m : List (String × α)) :
    replaceK k v (replaceK k v' m) = replaceK k v m := by
  unfold replaceK
  rw [List.map_map]
  congr 1
  funext p
  by_cases h : p.1 = k <;> simp [h]

theorem replaceK_comm {α : Type} (k k' : String) (v v' : α) (m : List (String × α))
    (h : k ≠ k') : replaceK k v (replaceK k' v' m) = replaceK k' v' (replaceK k v m) := by
  unfold replaceK
  rw [List.map_map, List.map_map]
  congr 1
  funext p
  by_cases h1 : p.1 = k <;> by_cases h2 : p.1 = k' <;> simp [h1, h2, h, Ne.symm h]

theorem replaceK_append {α : Type} (k : String) (v : α) (m m' : List (String × α)) :
    replaceK k v (m ++ m') = replaceK k v m ++ replaceK k v m' := by
  unfold replaceK
  exact List.map_append _ m m'

theorem dictInsert_of_contains {α : Type} (m : List (String × α)) (k : String) (v : α)
    (h : containsK m k = true) : dictInsert m k v = replaceK k v m := by
  unfold dictInsert
  rw [if_pos h]

theorem allAt_dictInsert {α : Type} (m : List (String × α)) (k : String) (v : α) :
    AllAt (dictInsert m k v) k v := by
  unfold dictInsert
  split
  · intro p hp hk
    unfold replaceK at hp
    rw [List.mem_map] at hp
    obtain ⟨q, hq, rfl⟩ := hp
    by_cases h : q.1 = k
    · simp [h]
    · rw [if_neg h] at hk
      exact absurd hk h
  · intro p hp hk
    rw [List.mem_append] at hp
    rcases hp with hp | hp
    · rename_i hnc
      unfold containsK at hnc
      rw [Bool.not_eq_true, List.any_eq_false] at hnc
      exact absurd (by simpa using hk) (by simpa using hnc p hp)
    · simpa using hp

theorem allAt_dictInsert_other {α : Type} (m : List (String × α)) (k k' : String) (v v' : α)
    (hne : k' ≠ k) (h : AllAt m k v) : AllAt (dictInsert m k' v') k v := by
  unfold dictInsert
  split
  · intro p hp hk
    unfold replaceK at hp
    rw [List.mem_map] at hp
    obtain ⟨q, hq, rfl⟩ := hp
    by_cases hq1 : q.1 = k'
    · simp only [hq1, if_true] at hk ⊢
      exact absurd hk hne
    · simp only [hq1, if_false] at hk ⊢
      exact h q hq hk
  · intro p hp hk
    rw [List.mem_append] at hp
    rcases hp with hp | hp
    · exact h p hp hk
    · rw [List.mem_singleton] at hp
      subst hp
      simp at hk
      exact absurd hk hne

theorem allAt_replaceK_self {α : Type} (m : List (String × α)) (k : String) (v : α)
    (h : AllAt m k v) : replaceK k v m = m := by
  unfold replaceK
  conv_rhs => rw [← List.map_id m]
  apply List.map_congr_left
  intro p hp
  by_cases hk : p.1 = k
  · simp [hk, (h p hp hk).symm]
  · simp [hk]

theorem containsK_dictInsert_self {α : Type} (m : List (String × α)) (k : String) (v : α) :
    containsK (dictInsert m k v) k = true := by
  unfold dictInsert
  split
  · rw [containsK_replaceK]
    assumption
  · unfold containsK
    rw [List.any_append]
    simp

theorem containsK_dictInsert_mono {α : Type} (m : List (String × α)) (k k' : String) (v : α)
    (h : containsK m k' = true) : containsK (dictInsert m k v) k' = true := by
  unfold dictInsert
  split
  · rw [containsK_replaceK]; exact h
  · unfold containsK at h ⊢
    rw [List.any_append, h]
    rfl

theorem containsK_foldl_ins {ν : Type} (key : ν → String) (t : List ν)
    (m : List (String × ν)) (k : String) (h : containsK m k = true) :
    containsK (t.foldl (fun m n => dictInsert m (key n) n) m) k = true := by
  induction t generalizing m with
  | nil => exact h
  | cons b t ih =>
    exact ih _ (containsK_dictInsert_mono _ _ _ _ h)

theorem allAt_foldl_ins {ν : Type} (key : ν → String) (t : List ν)
    (m : List (String × ν)) (k : String) (v : ν)
    (ht : ∀ n ∈ t, key n ≠ k) (h : AllAt m k v) :
    AllAt (t.foldl (fun m n => dictInsert m (key n) n) m) k v := by
  induction t generalizing m with
  | nil => exact h
  | cons b t ih =>
    exact ih _ (fun n hn => ht n (List.mem_cons_of_mem _ hn))
      (allAt_dictInsert_other _ _ _ _ _ (ht b (List.mem_cons_self _ _)) h)

theorem foldl_ins_replaceK {ν : Type} (key : ν → String) (t : List ν)
    (m : List (String × ν)) (k : String) (v : ν)
    (hc : containsK m k = true) (hex : ∃ n ∈ t, key n = k) :
    t.foldl (fun m n => dictInsert m (key n) n) (replaceK k v m) =
      t.foldl (fun m n => dictInsert m (key n) n) m := by
  induction t generalizing m v with
  | nil => simp at hex
  | cons b t ih =>
    by_cases hb : key b = k
    · have h1 : dictInsert (replaceK k v m) (key b) b = replaceK k b m := by
        rw [hb, dictInsert_of_contains _ _ _ (by rw [containsK_replaceK]; exact hc),
          replaceK_replaceK]
      have h2 : dictInsert m (key b) b = replaceK k b m := by
        rw [hb, dictInsert_of_contains _ _ _ hc]
      simp only [List.foldl_cons, h1, h2]
    · have h1 : dictInsert (replaceK k v m) (key b) b =
          replaceK k v (dictInsert m (key b) b) := by
        by_cases hcb : containsK m (key b) = true
        · rw [dictInsert_of_contains _ _ _ (by rw [containsK_replaceK]; exact hcb),
            dictInsert_of_contains _ _ _ hcb]
          exact replaceK_comm _ _ _ _ _ hb
        · unfold dictInsert
          rw [containsK_replaceK, if_neg hcb, if_neg hcb, replaceK_append]
          congr 1
          unfold replaceK
          simp [hb]
      simp only [List.foldl_cons, h1]
      rcases hex with ⟨n, hn, hnk⟩
      rcases List.mem_cons.mp hn with rfl | hn2
      · exact absurd hnk hb
      · exact ih _ _ (containsK_dictInsert_mono _ _ _ _ hc) ⟨n, hn2, hnk⟩

/-- Folding the same node list through dict assignment twice equals doing it
once: the second pass only rewrites each key with the value it already holds. -/
theorem foldl_ins_idem {ν : Type} (key : ν → String) (l : List ν) (m : List (String × ν)) :
    l.foldl (fun m n => dictInsert m (key n) n) (l.foldl (fun m n => dictInsert m (key n) n) m) =
      l.foldl (fun m n => dictInsert m (key n) n) m := by
  induction l generalizing m with
  | nil => rfl
  | cons a t ih =>
    simp only [List.foldl_cons]
    have hcM : containsK (t.foldl (fun m n => dictInsert m (key n) n) (dictInsert m (key a) a))
        (key a) = true :=
      containsK_foldl_ins _ _ _ _ (containsK_dictInsert_self _ _ _)
    by_cases hex : ∃ n ∈ t, key n = key a
    · rw [dictInsert_of_contains _ _ _ hcM, foldl_ins_replaceK _ _ _ _ _ hcM hex, ih]
    · have hall : AllAt (t.foldl (fun m n => dictInsert m (key n) n) (dictInsert m (key a) a))
          (key a) a := by
        apply allAt_foldl_ins
        · intro n hn
          exact fun hh => hex ⟨n, hn, hh⟩
        · exact allAt_dictInsert _ _ _
      rw [dictInsert_of_contains _ _ _ hcM, allAt_replaceK_self _ _ _ hall, ih]

/-- One Strategy 2 step either leaves the accumulator unchanged, or appends a
candidate whose ordered (source, target) pair is absent from it. -/
theorem strat2Step_cases (discovered : List Asset) (logsImply : String → String → Bool)
    (now : Nat) (acc : List LineageEdge) (p : Asset × Asset) :
    strat2Step discovered logsImply now acc p = acc ∨
    ∃ e, (acc.any (fun e' => e'.source = e.source ∧ e'.target = e.target)) = false ∧
      strat2Step discovered logsImply now acc p = acc ++ [e] := by
  unfold strat2Step
  cases hc : strat2Candidate discovered logsImply now p.1 p.2 with
  | none => left; rfl
  | some e =>
    by_cases hdup : (acc.any (fun e' => e'.source = e.source ∧ e'.target = e.target)) = true
    · left
      dsimp only
      rw [if_pos hdup]
    · right
      refine ⟨e, by simpa using hdup, ?_⟩
      dsimp only
      rw [if_neg hdup]

theorem applyPagination_edges_sub (page page_size : Nat) (ns : List LineageNode)
    (es : List LineageEdge) (e : LineageEdge)
    (he : e ∈ (applyPagination page page_size ns es).2) : e ∈ es := by
  unfold applyPagination at he
  split at he
  · exact List.mem_of_mem_filter he
  · exact he

theorem applyAsOf_some_edges (t : Nat) (ns : List LineageNode) (es : List LineageEdge)
    (e : LineageEdge) (he : e ∈ (applyAsOf (some t) ns es).2) : e.created_at ≤ t := by
  simp only [applyAsOf] at he
  simpa using List.of_mem_filter he

theorem applyAsOf_some_nodes (t : Nat) (ns : List LineageNode) (es : List LineageEdge)
    (n : LineageNode) (hn : n ∈ (applyAsOf (some t) ns es).1) :
    ∃ e ∈ (applyAsOf (some t) ns es).2, e.source = n.id ∨ e.target = n.id := by
  simp only [applyAsOf] at hn ⊢
  have hmem : n.id ∈
      (es.filter (fun e => e.created_at ≤ t)).map (fun x => x.source) ++
        (es.filter (fun e => e.created_at ≤ t)).map (fun x => x.target) := by
    simpa using List.of_mem_filter hn
  rw [List.mem_append] at hmem
  rcases hmem with h1 | h1
  · rw [List.mem_map] at h1
    obtain ⟨e, he, heq⟩ := h1
    exact ⟨e, he, Or.inl heq⟩
  · rw [List.mem_map] at h1
    obtain ⟨e, he, heq⟩ := h1
    exact ⟨e, he, Or.inr heq⟩

theorem applyPagination_off (page page_size : Nat) (ns : List LineageNode)
    (es : List LineageEdge) (h : ns.length ≤ pageSizeInt page_size) :
    applyPagination page page_size ns es = (ns, es) := by
  unfold applyPagination
  rw [if_neg]
  intro hcon
  omega

/-! ### Claim theorems -/

/-- C1: for every relationship string, every list of column-lineage mappings
and every list of transformations, `compute_edge_confidence` returns a score
in [0,1]; and for relationship `foreign_key` with exactly 5 column mappings of
average impact 10 and no transformations it returns exactly
0.95 = 0.6 + 0.15 + 0.2. -/
theorem C1_confidence_range_and_example :
    (∀ (relationship : String) (cls : List ColumnLineage) (ts : List Transformation),
      0 ≤ (compute_edge_confidence relationship cls ts).1 ∧
        (compute_edge_confidence relationship cls ts).1 ≤ 1) ∧
    (compute_edge_confidence "foreign_key" (List.replicate 5 fkMapping) []).1 = 0.95 := by
  constructor
  · intro relationship cls ts
    exact ⟨le_max_left 0 _, max_le (by norm_num) (min_le_left _ _)⟩
  · simp [compute_edge_confidence, fkMapping, List.sum_replicate]
    norm_num [min_def, max_def]

/-- C10: with all impact scores in [1,10] (and any relationship and
transformation evidence), the confidence score never drops below the
0.4 base: every additive term is non-negative. -/
theorem C10_confidence_floor (relationship : String) (cls : List ColumnLineage)
    (ts : List Transformation)
    (h : ∀ cl ∈ cls, 1 ≤ cl.impact_score ∧ cl.impact_score ≤ 10) :
    (0.4 : ℚ) ≤ (compute_edge_confidence relationship cls ts).1 := by
  have hsum : (0 : ℤ) ≤
      (cls.map (fun cl => if cl.impact_score = 0 then (1 : ℤ) else cl.impact_score)).sum := by
    apply List.sum_nonneg
    intro x hx
    simp only [List.mem_map] at hx
    obtain ⟨cl, hcl, rfl⟩ := hx
    have h1 := (h cl hcl).1
    split <;> omega
  have hmax : (0 : ℚ) ≤ max 1 (cls.length : ℚ) :=
    le_trans zero_le_one (le_max_left _ _)
  have hm1 : (0 : ℚ) ≤ min 0.3 ((cls.length : ℚ) * 0.03) := by
    apply le_min (by norm_num)
    positivity
  have hm2 : (0 : ℚ) ≤ min 0.2
      ((((cls.map (fun cl => if cl.impact_score = 0 then (1 : ℤ) else cl.impact_score)).sum : ℤ) : ℚ) /
        max 1 (cls.length : ℚ) / 10 * 0.2) := by
    apply le_min (by norm_num)
    have hq : (0 : ℚ) ≤
        (((cls.map (fun cl => if cl.impact_score = 0 then (1 : ℤ) else cl.impact_score)).sum : ℤ) : ℚ) := by
      exact_mod_cast hsum
    have := div_nonneg (div_nonneg hq hmax) (by norm_num : (0:ℚ) ≤ 10)
    nlinarith
  dsimp only [compute_edge_confidence]
  apply le_trans _ (le_max_right 0 _)
  apply le_min (by norm_num)
  split_ifs <;> linarith [hm1, hm2]

/-- Witness for C10 at a concrete input: one mapping of impact 10 satisfies
the hypothesis, and the resulting score is at least 0.4. -/
theorem C10_confidence_floor_witness :
    (∀ cl ∈ [fkMapping], 1 ≤ cl.impact_score ∧ cl.impact_score ≤ 10) ∧
      (0.4 : ℚ) ≤ (compute_edge_confidence "inferred_from_metadata" [fkMapping] []).1 :=
  ⟨by decide, C10_confidence_floor "inferred_from_metadata" [fkMapping] [] (by decide)⟩

/-- C2 counterexample: the two tables `p` and `q` both carry a column `id`
of the same type and no SQL text, yet the Column Matcher produces no mapping
at all — the claimed exact-name `direct_match` rule does not exist in the
code ("No fallback - only return relationships found through actual SQL
usage"). -/
theorem C2_counterexample :
    c2AssetP.columns.map (·.name) = ["id"] ∧ c2AssetQ.columns.map (·.name) = ["id"] ∧
    (c2AssetP.columns.map (·.type_) = c2AssetQ.columns.map (·.type_)) ∧
    sqlOrDef c2AssetP = "" ∧ sqlOrDef c2AssetQ = "" ∧
    build_column_lineage_from_metadata c2AssetP c2AssetQ = [] := by
  refine ⟨rfl, rfl, rfl, rfl, rfl, ?_⟩
  decide

/-- C2 amended: when neither asset carries SQL text, the Column Matcher
(`build_column_lineage_from_usage`, and hence
`build_column_lineage_from_metadata`) produces no mapping whatsoever; column
mappings arise only from SQL-usage analysis, never from name equality. -/
theorem C2_amended_no_sql_no_mappings (src tgt : Asset) (discovered : List Asset)
    (hs : sqlOrDef src = "") (ht : sqlOrDef tgt = "") :
    build_column_lineage_from_usage src tgt discovered = [] ∧
      build_column_lineage_from_metadata src tgt = [] := by
  have main : ∀ d : List Asset, build_column_lineage_from_usage src tgt d = [] := by
    intro d
    unfold build_column_lineage_from_usage
    split
    · rfl
    · rw [hs, ht]
      unfold analyze_cross_table_sql_relationships
      rw [hs, ht]
      simp only [ne_eq, not_true_eq_false, false_and, if_false]
      split
      · simp only [List.nil_append]
        apply List.flatMap_eq_nil_iff.mpr
        intro tc htc
        apply List.filterMap_eq_nil_iff.mpr
        intro sc hsc
        rw [usageRelationship_empty]
      · simp only [List.nil_append]
        apply List.flatMap_eq_nil_iff.mpr
        intro tc htc
        apply List.filterMap_eq_nil_iff.mpr
        intro sc hsc
        rw [usageRelationship_empty]
  exact ⟨main discovered, main []⟩

/-- Witness for C2 amended at the concrete pair `p`, `q`. -/
theorem C2_amended_witness :
    build_column_lineage_from_usage c2AssetP c2AssetQ [] = [] ∧
      build_column_lineage_from_metadata c2AssetP c2AssetQ = [] :=
  C2_amended_no_sql_no_mappings c2AssetP c2AssetQ [] rfl rfl

/-- C3 counterexample: for tables `a` (`id`, `email`) and `b`
(`id`, `user_email`) with no views, graph assembly produces no edge between
them at all — in particular no `id_inference` mapping with impact 4 and no
edge of confidence ≈ 0.44. The plain column name `id` matches none of the
structural ID patterns (`_id`, `_key`, `id_`, `key_`), and with no SQL the
pairwise matcher finds no shared-column mappings. -/
theorem C3_counterexample :
    ¬ ∃ e ∈ c3Run.edges, ∃ cl ∈ e.column_lineage,
      cl.relationship_type = "id_inference" := by
  decide

/-- C3 amended: for the two-table scenario the assembled graph contains both
nodes and no edge whatsoever, so no column mapping (between `email` and
`user_email` or anything else) is produced. -/
theorem C3_amended_no_edges :
    c3Run.edges = [] ∧ c3Run.nodes.map (·.id) = ["cat.sch.a", "cat.sch.b"] := by
  decide

/-- C4 counterexample: the role gate accepts the supplied role `"ADMIN"`
against required role `"admin"` although the two differ as strings — the
comparison is not exact string equality. -/
theorem C4_counterexample :
    require_role_ok "admin" (some "ADMIN") = true ∧ "ADMIN" ≠ "admin" := by
  decide

/-- C4 amended: the curation role check succeeds iff the lower-cased supplied
role equals the lower-cased required role (default `admin`); any other value
is rejected with a 403 before the guarded operation runs. -/
theorem C4_amended_case_insensitive (role : String) (supplied : Option String)
    (h : pyLower role ≠ "") :
    require_role_ok role supplied = true ↔ pyLower (supplied.getD "") = pyLower role := by
  simp only [require_role_ok, Bool.not_eq_true', Bool.and_eq_false_iff, bne_eq_false_iff_eq]
  constructor
  · rintro (h1 | h2)
    · exact absurd h1 h
    · exact h2
  · intro hgot
    right; exact hgot

/-- Witness for C4 amended: required role `admin`, supplied `Admin`. -/
theorem C4_amended_witness : require_role_ok "admin" (some "Admin") = true :=
  (C4_amended_case_insensitive "admin" (some "Admin") (by decide)).mpr (by decide)

/-- C5 counterexample: `ssn` is classified `(True, "HIGH")`, not the claimed
`CRITICAL` tier — the code has no CRITICAL tier at all. -/
theorem C5_counterexample :
    detect_pii_in_column "ssn" "" = (true, "HIGH") ∧
      detect_pii_in_column "ssn" "" ≠ (true, "CRITICAL") := by
  decide

/-- C5 amended: the classifier is three-tiered over the lower-cased
`"name description"` string — HIGH (ssn, social_security, passport,
national_id, license_number, credit_card, account_number, password, secret,
private_key), MEDIUM (email, phone, mobile, address, zip, postal, birth_date,
birthday, age, gender, race, ethnicity), LOW (name, first_name, last_name,
full_name, username, user_id), else NONE — checked in that order, and
`contains_pii` is true exactly when the tier is not NONE. -/
theorem C5_amended_three_tier :
    (∀ n d, ((detect_pii_in_column n d).1 = true ↔ (detect_pii_in_column n d).2 ≠ "NONE") ∧
      (detect_pii_in_column n d).2 ∈ ["NONE", "HIGH", "MEDIUM", "LOW"]) ∧
    detect_pii_in_column "ssn" "" = (true, "HIGH") ∧
    detect_pii_in_column "credit_card" "" = (true, "HIGH") ∧
    detect_pii_in_column "password" "" = (true, "HIGH") ∧
    detect_pii_in_column "email" "" = (true, "MEDIUM") ∧
    detect_pii_in_column "zip_code" "" = (true, "MEDIUM") ∧
    detect_pii_in_column "birth_date" "" = (true, "MEDIUM") ∧
    detect_pii_in_column "first_name" "" = (true, "LOW") ∧
    detect_pii_in_column "user_id" "" = (true, "LOW") ∧
    detect_pii_in_column "amount" "" = (false, "NONE") := by
  refine ⟨?_, by decide, by decide, by decide, by decide, by decide, by decide,
    by decide, by decide, by decide⟩
  intro n d
  exact detectPiiAux_spec (pyLower (n ++ " " ++ d)) pii_patterns (by decide)

/-- C6 counterexample: upserting the same single-edge list twice leaves the
store with two copies of the edge — `upsert_edges` appends and is not
idempotent, and the store holds two edges with the same (source, target)
key. -/
theorem C6_counterexample :
    (upsert_edges (upsert_edges c6Store [c6Edge]) [c6Edge]).edges.length = 2 ∧
    (upsert_edges c6Store [c6Edge]).edges.length = 1 ∧
    upsert_edges (upsert_edges c6Store [c6Edge]) [c6Edge] ≠ upsert_edges c6Store [c6Edge] := by
  refine ⟨rfl, rfl, fun h => ?_⟩
  have := congrArg (fun s => s.edges.length) h
  simp [upsert_edges, c6Store] at this

/-- C6 amended: `upsert_nodes` is idempotent keyed by node id (repeating it
leaves the node dict unchanged), but `upsert_edges` merely appends, so
repeating it duplicates every edge and the store may hold many edges per
(source, target) key. -/
theorem C6_amended_nodes_idem_edges_append :
    (∀ (ν ε : Type) (key : ν → String) (s : JsonStore ν ε) (ns : List ν),
      upsert_nodes key (upsert_nodes key s ns) ns = upsert_nodes key s ns) ∧
    (∀ (ν ε : Type) (s : JsonStore ν ε) (es : List ε),
      (upsert_edges s es).edges = s.edges ++ es) := by
  constructor
  · intro ν ε key s ns
    unfold upsert_nodes
    congr 1
    exact foldl_ins_idem key ns s.nodes
  · intro ν ε s es
    rfl

/-- C7 counterexample: for the two Starburst tables `t1` and `t2` sharing the
ID-pattern columns `x_id` and `y_id`, the assembled edge list contains each
ordered pair twice — Strategy 1.5 appends without any duplicate check, so
"at most one edge per ordered (source, target) pair" fails. -/
theorem C7_counterexample :
    c7Run.edges.map (fun e => (e.source, e.target)) =
      [("cat.sch.t2", "cat.sch.t1"), ("cat.sch.t2", "cat.sch.t1"),
       ("cat.sch.t1", "cat.sch.t2"), ("cat.sch.t1", "cat.sch.t2")] ∧
    ¬ List.Pairwise (fun e1 e2 => ¬(e1.source = e2.source ∧ e1.target = e2.target))
      c7Run.edges := by
  constructor
  · decide
  · decide

/-- C7 amended: only Strategy C (the pairwise metadata fallback) checks for an
existing ordered (source, target) pair before inserting: every edge it adds
has a pair distinct from every earlier edge, including all edges the
SQL/structural strategies contributed. (Those earlier strategies append
without checking, as the counterexample shows.) -/
theorem C7_amended_strategy2_dedup (discovered : List Asset)
    (logsImply : String → String → Bool) (now : Nat)
    (ps : List (Asset × Asset)) (init : List LineageEdge) :
    ∃ added, ps.foldl (strat2Step discovered logsImply now) init = init ++ added ∧
      added.Pairwise (fun e1 e2 => ¬(e1.source = e2.source ∧ e1.target = e2.target)) ∧
      ∀ e ∈ added, ∀ e' ∈ init, ¬(e'.source = e.source ∧ e'.target = e.target) := by
  induction ps generalizing init with
  | nil => exact ⟨[], by simp, by simp, by simp⟩
  | cons p ps ih =>
    rw [List.foldl_cons]
    rcases strat2Step_cases discovered logsImply now init p with hstep | ⟨e, hdup, hstep⟩
    · rw [hstep]
      exact ih init
    · rw [hstep]
      obtain ⟨added, heq, hpw, hfresh⟩ := ih (init ++ [e])
      refine ⟨e :: added, ?_, ?_, ?_⟩
      · rw [heq, List.append_assoc]
        rfl
      · refine List.Pairwise.cons ?_ hpw
        intro b hb
        exact hfresh b hb e (by simp)
      · intro x hx e' he'
        rcases List.mem_cons.mp hx with rfl | hx2
        · rw [List.any_eq_false] at hdup
          simpa using hdup e' he'
        · exact hfresh x hx2 e' (List.mem_append_left _ he')

/-- C8 counterexample: retrieving the `t1`/`t2` graph with a valid
`as_of = 5` and `page_size = 1` returns node `t1` with an empty edge list —
pagination after the temporal filter re-introduces an orphan node, so the
no-orphans property fails for this retrieval. -/
theorem C8_counterexample :
    c8Run.nodes.map (·.id) = ["cat.sch.t1"] ∧ c8Run.edges = [] ∧
    ¬ (∀ n ∈ c8Run.nodes, ∃ e ∈ c8Run.edges, e.source = n.id ∨ e.target = n.id) := by
  refine ⟨by decide, by decide, ?_⟩
  decide

/-- C8 amended: with a valid `as_of = T`, every edge of the response has
`created_at ≤ T`, and — provided pagination is not applied (the filtered node
count is within `page_size_int`) — every returned node is an endpoint of at
least one returned edge. -/
theorem C8_amended_temporal_filter (discovered : List Asset) (activeIds : List String)
    (viewLin : Asset → List String × List Transformation)
    (logsImply : String → String → Bool) (now page page_size t : Nat)
    (hnopag : (applyAsOf (some t)
        (assembleGraph discovered activeIds viewLin logsImply now).1
        (assembleGraph discovered activeIds viewLin logsImply now).2).1.length ≤
      pageSizeInt page_size) :
    (∀ e ∈ (get_data_lineage discovered activeIds viewLin logsImply now
        page page_size (some t)).edges, e.created_at ≤ t) ∧
    (∀ n ∈ (get_data_lineage discovered activeIds viewLin logsImply now
        page page_size (some t)).nodes,
      ∃ e ∈ (get_data_lineage discovered activeIds viewLin logsImply now
        page page_size (some t)).edges, e.source = n.id ∨ e.target = n.id) := by
  unfold get_data_lineage
  dsimp only
  rw [applyPagination_off _ _ _ _ hnopag]
  constructor
  · intro e he
    exact applyAsOf_some_edges t _ _ e he
  · intro n hn
    exact applyAsOf_some_nodes t _ _ n hn

/-- Witness for C8 amended: the `t1`/`t2` build retrieved with `as_of = 5`
and the default `page_size = 1000` (pagination inactive). -/
theorem C8_amended_witness :
    (∀ e ∈ (get_data_lineage [c7AssetT1, c7AssetT2] ["starburst_1"] noViewLin noLogs 0
        0 1000 (some 5)).edges, e.created_at ≤ 5) ∧
    (∀ n ∈ (get_data_lineage [c7AssetT1, c7AssetT2] ["starburst_1"] noViewLin noLogs 0
        0 1000 (some 5)).nodes,
      ∃ e ∈ (get_data_lineage [c7AssetT1, c7AssetT2] ["starburst_1"] noViewLin noLogs 0
        0 1000 (some 5)).edges, e.source = n.id ∨ e.target = n.id) :=
  C8_amended_temporal_filter [c7AssetT1, c7AssetT2] ["starburst_1"] noViewLin noLogs 0
    0 1000 5 (by decide)

/-- C9: reconciling the stored dbt batch `nodes=[{name:"b", depends_on:["a"]}]`
yields exactly one edge `a -> b` with relationship `dbt_dependency` and
confidence 0.75; and each adapter stamps its fixed baseline confidence on
every edge it emits — openlineage 0.8, dbt 0.75, airflow 0.6, metadata 0.7. -/
theorem C9_reconciler_baselines :
    ((reconcile_dbt_to_edges 0 c9Store).map (fun e => (e.source, e.target, e.relationship)) =
        [("a", "b", "dbt_dependency")] ∧
      (reconcile_dbt_to_edges 0 c9Store).map (fun e => e.confidence_score) = [0.75]) ∧
    (∀ (now : Nat) (store : IngestStore),
      ∀ e ∈ reconcile_openlineage_to_edges now store, e.confidence_score = 0.8) ∧
    (∀ (now : Nat) (store : IngestStore),
      ∀ e ∈ reconcile_dbt_to_edges now store, e.confidence_score = 0.75) ∧
    (∀ (now : Nat) (store : IngestStore),
      ∀ e ∈ reconcile_airflow_to_edges now store, e.confidence_score = 0.6) ∧
    (∀ (now : Nat) (store : IngestStore),
      ∀ e ∈ reconcile_metadata_to_edges now store, e.confidence_score = 0.7) :=
  ⟨⟨by decide, by simp [reconcile_dbt_to_edges, c9Store]⟩,
    reconcile_openlineage_confidence, reconcile_dbt_confidence,
    reconcile_airflow_confidence, reconcile_metadata_confidence⟩

end Torro
